import Mathlib

/-
Verification of the Vaazha agent harness against its specification.
The C++ sources under src/ are shallowly embedded as Lean definitions:
pure control flow is translated directly, filesystem and process effects
are abstracted into explicit oracle structures, and machine integers are
modelled as Nat with explicit bounds where overflow matters.
-/

namespace Vaazha

/-! ## Error model (src/core/errors/agent_errors.hpp) -/

/-- Error categories of the error model, mirroring `ErrorCategory`. -/
inductive ErrorCategory where
  | Input
  | Execution
  | Provider
  | Policy
  | Internal
deriving DecidableEq, Repr

/-- Standardized error payload, mirroring `AgentError`. -/
structure AgentError where
  category : ErrorCategory
  message : String
  code : String
  hint : String
deriving DecidableEq, Repr

/-- Result propagation, mirroring `Result<T> = std::variant<T, AgentError>`. -/
abbrev AResult (α : Type) := Except AgentError α

/-! ## String helpers

Commands are modelled as `List Char` at the scanning level; `std::tolower`
in the C locale lowercases exactly the ASCII range. -/

/-- ASCII lowercase of one character, mirroring `std::tolower` in the C locale. -/
def asciiLower (c : Char) : Char :=
  if 'A' ≤ c ∧ c ≤ 'Z' then Char.ofNat (c.toNat + 32) else c

/-- Bytewise lowercase, mirroring `PolicyGuard::lowercase`. -/
def lowercase (s : List Char) : List Char := s.map asciiLower

/-- Substring containment, mirroring `std::string::find(needle) != npos`. -/
def containsSub : List Char → List Char → Bool
  | [], needle => needle.isPrefixOf []
  | hay@(_ :: t), needle => needle.isPrefixOf hay || containsSub t needle

/-! ## Paths

A `std::filesystem::path` is modelled by its component list as produced by
path iteration: an absolute POSIX path starts with the root component "/". -/

/-- Rendering of a component path back to text (for error messages). -/
def renderPath : List String → String
  | "/" :: rest => "/" ++ String.intercalate "/" rest
  | comps => String.intercalate "/" comps

/-- Relativity test, mirroring `path::is_relative` on POSIX. -/
def pathIsRelative : List String → Bool
  | "/" :: _ => false
  | _ => true

/-- Filesystem oracle used by the Policy Guard: existence and directory
tests and weak canonicalisation (`none` models a failing `error_code`). -/
structure FsModel where
  pathExists : List String → Bool
  isDir : List String → Bool
  weaklyCanonical : List String → Option (List String)

/-- A trivial filesystem in which every path exists, is a directory and is
already canonical; used for concrete evaluations. -/
def idFs : FsModel :=
  { pathExists := fun _ => true
    isDir := fun _ => true
    weaklyCanonical := fun p => some p }

/-! ## Policy Guard (src/policy/policy_guard.cpp) -/

/-- Component-wise containment loop, mirroring `PolicyGuard::is_within_root`:
walk both component sequences together, fail on the first mismatch, and
succeed exactly when the root was exhausted. -/
def is_within_root : List String → List String → Bool
  | [], _ => true
  | _ :: _, [] => false
  | r :: rs, c :: cs => if r = c then is_within_root rs cs else false

/-- Path confinement, mirroring `PolicyGuard::validate_path_in_workspace`. -/
def validate_path_in_workspace (fs : FsModel) (workspace_root target_path : List String) :
    AResult (List String) :=
  if fs.pathExists workspace_root = false then
    .error ⟨.Input, "Workspace root does not exist: " ++ renderPath workspace_root,
            "invalid_workspace_root", ""⟩
  else if fs.isDir workspace_root = false then
    .error ⟨.Input, "Workspace root is not a directory: " ++ renderPath workspace_root,
            "invalid_workspace_root", ""⟩
  else
    match fs.weaklyCanonical workspace_root with
    | none =>
        .error ⟨.Input, "Unable to resolve workspace root: " ++ renderPath workspace_root,
                "invalid_workspace_root", ""⟩
    | some canonical_root =>
        let candidate :=
          if pathIsRelative target_path then canonical_root ++ target_path else target_path
        match fs.weaklyCanonical candidate with
        | none =>
            .error ⟨.Input, "Unable to resolve target path: " ++ renderPath target_path,
                    "invalid_path", ""⟩
        | some canonical_candidate =>
            if is_within_root canonical_root canonical_candidate then
              .ok canonical_candidate
            else
              .error ⟨.Policy, "Path escapes workspace root: " ++ renderPath canonical_candidate,
                      "path_outside_workspace", ""⟩

/-- Default command denylist, mirroring `CommandPolicy::blocked_substrings`. -/
def default_blocked_substrings : List String :=
  ["sudo", "rm -rf", "shutdown", "reboot", "mkfs", "dd if=", ":()\x7b :|:& \x7d;:"]

/-- First denylist entry whose lowercase form occurs in the lowered command,
mirroring the scan loop of `PolicyGuard::validate_command`. -/
def findBlocked (lowered : List Char) : List String → Option String
  | [] => none
  | b :: rest =>
      if containsSub lowered (lowercase b.data) then some b else findBlocked lowered rest

/-- Command validation, mirroring `PolicyGuard::validate_command`. -/
def validate_command (policy : List String) (command : String) : AResult String :=
  if command = "" then
    .error ⟨.Input, "Command cannot be empty.", "empty_command", ""⟩
  else
    match findBlocked (lowercase command.data) policy with
    | some b =>
        .error ⟨.Policy, "Command contains blocked operation: " ++ b, "blocked_command", ""⟩
    | none => .ok command

/-! ### Policy Guard lemmas -/

theorem is_within_root_iff (root child : List String) :
    is_within_root root child = true ↔ ∃ t, root ++ t = child := by
  induction root generalizing child with
  | nil =>
      simp [is_within_root]
  | cons r rs ih =>
      cases child with
      | nil =>
          simp [is_within_root]
      | cons c cs =>
          constructor
          · intro h
            rw [is_within_root] at h
            split at h
            · rename_i hrc
              subst hrc
              obtain ⟨t, ht⟩ := (ih cs).mp h
              exact ⟨t, by simp [ht]⟩
            · exact absurd h (by simp)
          · rintro ⟨t, ht⟩
            simp only [List.cons_append, List.cons.injEq] at ht
            obtain ⟨rfl, ht⟩ := ht
            rw [is_within_root]
            simp only [if_pos rfl]
            exact (ih cs).mpr ⟨t, ht⟩

theorem findBlocked_some_of_match {lowered : List Char} {policy : List String}
    (h : ∃ b ∈ policy, containsSub lowered (lowercase b.data) = true) :
    ∃ b', findBlocked lowered policy = some b' := by
  induction policy with
  | nil => simp at h
  | cons p rest ih =>
      by_cases hp : containsSub lowered (lowercase p.data) = true
      · exact ⟨p, by simp [findBlocked, hp]⟩
      · obtain ⟨b, hb, hbm⟩ := h
        rcases List.mem_cons.mp hb with rfl | hbt
        · exact absurd hbm hp
        · obtain ⟨b', hb'⟩ := ih ⟨b, hbt, hbm⟩
          exact ⟨b', by simp [findBlocked, hp, hb']⟩

theorem findBlocked_none_of_nomatch {lowered : List Char} {policy : List String}
    (h : ∀ b ∈ policy, containsSub lowered (lowercase b.data) = false) :
    findBlocked lowered policy = none := by
  induction policy with
  | nil => rfl
  | cons p rest ih =>
      have hp := h p (by simp)
      simp only [findBlocked, hp]
      simp only [Bool.false_eq_true, if_false]
      exact ih (fun b hb => h b (by simp [hb]))

/-- C7: an empty command is rejected with code empty_command; a non-empty
command containing (case-insensitively) any substring of the default
denylist is rejected with code blocked_command in the Policy category; any
other non-empty command is returned unchanged. -/
theorem C7_validate_command_denylist (cmd : String) :
    (cmd = "" →
      validate_command default_blocked_substrings cmd =
        .error ⟨.Input, "Command cannot be empty.", "empty_command", ""⟩)
  ∧ (cmd ≠ "" →
      (∃ b ∈ default_blocked_substrings,
          containsSub (lowercase cmd.data) (lowercase b.data) = true) →
      ∃ e, validate_command default_blocked_substrings cmd = .error e ∧
        e.code = "blocked_command" ∧ e.category = .Policy)
  ∧ (cmd ≠ "" →
      (∀ b ∈ default_blocked_substrings,
          containsSub (lowercase cmd.data) (lowercase b.data) = false) →
      validate_command default_blocked_substrings cmd = .ok cmd) := by
  refine ⟨fun h => by simp [validate_command, h], fun hne hmatch => ?_, fun hne hnomatch => ?_⟩
  · obtain ⟨b', hb'⟩ := findBlocked_some_of_match hmatch
    refine ⟨⟨.Policy, "Command contains blocked operation: " ++ b', "blocked_command", ""⟩,
      ?_, rfl, rfl⟩
    simp [validate_command, hne, hb']
  · simp [validate_command, hne, findBlocked_none_of_nomatch hnomatch]

/-- C7 witness: the mixed-case command "ReBoOt now" is non-empty, matches the
denylist entry "reboot" case-insensitively, and is rejected with
blocked_command in the Policy category. -/
theorem C7_validate_command_denylist_witness :
    ∃ e, validate_command default_blocked_substrings "ReBoOt now" = .error e ∧
      e.code = "blocked_command" ∧ e.category = .Policy :=
  (C7_validate_command_denylist "ReBoOt now").2.1 (by decide)
    ⟨"reboot", by decide, by decide⟩

/-- C3: for a workspace root that exists and is a directory, every accepted
target resolves to a canonical path having the weakly-canonicalised root as
a component-wise prefix; every target whose canonical form is not under the
canonical root is rejected with code path_outside_workspace; and the sibling
path /a/bc, which shares only a string prefix with the root /a/b, is
rejected. -/
theorem C3_path_confinement (fs : FsModel) (root target : List String)
    (hex : fs.pathExists root = true) (hdir : fs.isDir root = true) :
    (∀ p, validate_path_in_workspace fs root target = .ok p →
      ∃ cr, fs.weaklyCanonical root = some cr ∧ ∃ t, cr ++ t = p)
  ∧ (∀ cr cc, fs.weaklyCanonical root = some cr →
      fs.weaklyCanonical (if pathIsRelative target then cr ++ target else target) = some cc →
      is_within_root cr cc = false →
      validate_path_in_workspace fs root target =
        .error ⟨.Policy, "Path escapes workspace root: " ++ renderPath cc,
                "path_outside_workspace", ""⟩)
  ∧ validate_path_in_workspace idFs ["/", "a", "b"] ["/", "a", "bc"] =
      .error ⟨.Policy, "Path escapes workspace root: " ++ renderPath ["/", "a", "bc"],
              "path_outside_workspace", ""⟩ := by
  refine ⟨fun p hp => ?_, fun cr cc hcr hcc hout => ?_, by rfl⟩
  · unfold validate_path_in_workspace at hp
    rw [hex] at hp
    rw [hdir] at hp
    simp only [Bool.true_eq_false, if_false] at hp
    cases hroot : fs.weaklyCanonical root with
    | none => rw [hroot] at hp; exact absurd hp (by simp)
    | some cr =>
        rw [hroot] at hp
        simp only at hp
        cases hcand : fs.weaklyCanonical
            (if pathIsRelative target then cr ++ target else target) with
        | none => rw [hcand] at hp; exact absurd hp (by simp)
        | some cc =>
            rw [hcand] at hp
            simp only at hp
            split at hp
            · rename_i hwithin
              obtain rfl : cc = p := by injection hp
              exact ⟨cr, rfl, (is_within_root_iff cr _).mp hwithin⟩
            · exact absurd hp (by simp)
  · unfold validate_path_in_workspace
    rw [hex, hdir]
    simp only [Bool.true_eq_false, if_false]
    rw [hcr]
    simp only
    rw [hcc]
    simp only [hout]
    simp

/-- C3 witness: in the trivial filesystem with root /a/b (which exists and is
a directory), the accepted relative target resolves under the root, and the
sibling /a/bc is rejected with path_outside_workspace. -/
theorem C3_path_confinement_witness :
    ∃ cr, idFs.weaklyCanonical ["/", "a", "b"] = some cr ∧
      ∃ t, cr ++ t = ["/", "a", "b", "x.txt"] :=
  (C3_path_confinement idFs ["/", "a", "b"] ["x.txt"] rfl rfl).1
    ["/", "a", "b", "x.txt"] (by rfl)

/-! ## Run Manager (src/session/run_manager.cpp)

The registry `runs_` (an unordered_map guarded by a mutex) is modelled as
an association list; all Run Manager operations are serialised in the
source, so they are embedded as pure state-passing functions. A
`shared_ptr<std::atomic_bool>` cancel token is modelled as `Option Bool`:
`none` is the null pointer (the default-constructed member), `some b` an
allocated flag holding `b`. -/

/-- Run lifecycle states, mirroring `RunState`. -/
inductive RunState where
  | Created
  | Running
  | Completed
  | Failed
  | Cancelled
deriving DecidableEq, Repr, Inhabited

/-- Terminal-state test, mirroring `RunManager::is_terminal`. -/
def is_terminal (state : RunState) : Bool :=
  state == .Completed || state == .Failed || state == .Cancelled

/-- State rendering, mirroring `RunManager::to_string`. -/
def runStateString : RunState → String
  | .Created => "created"
  | .Running => "running"
  | .Completed => "completed"
  | .Failed => "failed"
  | .Cancelled => "cancelled"

/-- Validated run request, mirroring `protocol::RunRequest`; paths are kept
as plain strings at this level. -/
structure RunRequest where
  task_description : Option String
  plan_file : Option String
  working_directory : String
  max_steps : Nat
  verbose : Bool
deriving DecidableEq, Repr, Inhabited

/-- Registry entry, mirroring `RunRecord`. The `cancel_token` field is the
`shared_ptr<std::atomic_bool>` member: `none` is the null pointer. -/
structure RunRecord where
  run_id : String
  request : RunRequest
  state : RunState
  failure_reason : Option String
  cancel_token : Option Bool
deriving DecidableEq, Repr

/-- The run registry `runs_`. -/
abbrev Registry := List (String × RunRecord)

/-- In-place update of one registry entry, mirroring mutation through the
map iterator. -/
def regSet (reg : Registry) (id : String) (rec : RunRecord) : Registry :=
  reg.map (fun kv => if kv.1 = id then (id, rec) else kv)

/-- Attempt loop of `RunManager::start_run`: ids are drawn from the
generator until one is unused or the attempts are exhausted. -/
def start_run_from (gen : Nat → String) (request : RunRequest) (reg : Registry) :
    List Nat → AResult String × Registry
  | [] =>
      (.error ⟨.Internal, "Unable to allocate unique run ID.",
               "run_id_generation_failed", ""⟩, reg)
  | attempt :: rest =>
      let run_id := gen attempt
      match reg.lookup run_id with
      | some _ => start_run_from gen request reg rest
      | none =>
          let record : RunRecord := ⟨run_id, request, .Created, none, none⟩
          let inserted := reg ++ [(run_id, record)]
          (.ok run_id, regSet inserted run_id { record with state := .Running })

/-- Run creation, mirroring `RunManager::start_run`. The id generator
stands for `generate_run_id`; the source never assigns the record's
`cancel_token`, so the inserted record keeps the null token. -/
def start_run (gen : Nat → String) (reg : Registry) (request : RunRequest) :
    AResult String × Registry :=
  if request.task_description.isNone && request.plan_file.isNone then
    (.error ⟨.Input, "Run request must include task or plan file.",
             "invalid_run_request", ""⟩, reg)
  else if request.task_description.isSome && request.plan_file.isSome then
    (.error ⟨.Input, "Run request cannot include both task and plan file.",
             "invalid_run_request", ""⟩, reg)
  else
    start_run_from gen request reg (List.range 16)

/-- Terminal transition, mirroring `RunManager::transition_to_terminal`. -/
def transition_to_terminal (reg : Registry) (run_id : String) (next_state : RunState)
    (failure_reason : Option String) : AResult RunState × Registry :=
  match reg.lookup run_id with
  | none => (.error ⟨.Input, "Run ID not found: " ++ run_id, "run_not_found", ""⟩, reg)
  | some rec =>
      if is_terminal rec.state then
        (.error ⟨.Input, "Run is already terminal: " ++ runStateString rec.state,
                 "invalid_state_transition", ""⟩, reg)
      else
        (.ok next_state,
         regSet reg run_id { rec with state := next_state, failure_reason := failure_reason })

/-- Mirrors `RunManager::cancel_run`. -/
def cancel_run (reg : Registry) (run_id : String) : AResult RunState × Registry :=
  transition_to_terminal reg run_id .Cancelled none

/-- Mirrors `RunManager::mark_completed`. -/
def mark_completed (reg : Registry) (run_id : String) : AResult RunState × Registry :=
  transition_to_terminal reg run_id .Completed none

/-- Mirrors `RunManager::mark_failed`. -/
def mark_failed (reg : Registry) (run_id : String) (reason : String) :
    AResult RunState × Registry :=
  transition_to_terminal reg run_id .Failed (some reason)

/-- Mirrors `RunManager::get_run_state`. -/
def get_run_state (reg : Registry) (run_id : String) : AResult RunState :=
  match reg.lookup run_id with
  | none => .error ⟨.Input, "Run ID not found: " ++ run_id, "run_not_found", ""⟩
  | some rec => .ok rec.state

/-- A deterministic id generator used for concrete evaluations of
`start_run`. -/
def genFixed : Nat → String := fun _ => "run-0000aaaa"

/-- C4: once a record is in a terminal state, each of cancel_run,
mark_completed and mark_failed is rejected with code
invalid_state_transition and leaves the whole registry, hence the record
state and failure_reason, unchanged. -/
theorem C4_no_transition_out_of_terminal (reg : Registry) (id : String) (rec : RunRecord)
    (reason : String) (hfind : reg.lookup id = some rec)
    (hterm : is_terminal rec.state = true) :
    (∃ e, cancel_run reg id = (.error e, reg) ∧ e.code = "invalid_state_transition")
  ∧ (∃ e, mark_completed reg id = (.error e, reg) ∧ e.code = "invalid_state_transition")
  ∧ (∃ e, mark_failed reg id reason = (.error e, reg) ∧ e.code = "invalid_state_transition") := by
  have herr : ∀ next fr, transition_to_terminal reg id next fr =
      (.error ⟨.Input, "Run is already terminal: " ++ runStateString rec.state,
               "invalid_state_transition", ""⟩, reg) := by
    intro next fr
    simp [transition_to_terminal, hfind, hterm]
  exact ⟨⟨_, herr .Cancelled none, rfl⟩, ⟨_, herr .Completed none, rfl⟩,
    ⟨_, herr .Failed (some reason), rfl⟩⟩

/-- C4 witness: with a registry holding one Completed record, all three
transition attempts are rejected with invalid_state_transition and leave
the registry unchanged. -/
theorem C4_no_transition_out_of_terminal_witness :
    (∃ e, cancel_run [("run-1", ⟨"run-1", ⟨some "t", none, "/ws", 30, false⟩,
        .Completed, none, none⟩)] "run-1" =
        (.error e, [("run-1", ⟨"run-1", ⟨some "t", none, "/ws", 30, false⟩,
          .Completed, none, none⟩)]) ∧ e.code = "invalid_state_transition")
  ∧ (∃ e, mark_completed [("run-1", ⟨"run-1", ⟨some "t", none, "/ws", 30, false⟩,
        .Completed, none, none⟩)] "run-1" =
        (.error e, [("run-1", ⟨"run-1", ⟨some "t", none, "/ws", 30, false⟩,
          .Completed, none, none⟩)]) ∧ e.code = "invalid_state_transition")
  ∧ (∃ e, mark_failed [("run-1", ⟨"run-1", ⟨some "t", none, "/ws", 30, false⟩,
        .Completed, none, none⟩)] "run-1" "boom" =
        (.error e, [("run-1", ⟨"run-1", ⟨some "t", none, "/ws", 30, false⟩,
          .Completed, none, none⟩)]) ∧ e.code = "invalid_state_transition") :=
  C4_no_transition_out_of_terminal _ "run-1"
    ⟨"run-1", ⟨some "t", none, "/ws", 30, false⟩, .Completed, none, none⟩ "boom" rfl rfl

/-- C1: evaluation of the embedded Run Manager at a concrete request shows
that start_run stores a RunRecord whose cancel_token is the null pointer
(none), and that a successful cancel_run transitions the record to
Cancelled while still leaving cancel_token null: no token is ever
allocated or set to true, contradicting the claim (and the repository's
own test CancelRunSetsCancellationToken; get_cancel_token is declared in
run_manager.hpp but has no definition in run_manager.cpp). -/
theorem C1_cancel_token_never_allocated :
    (start_run genFixed [] ⟨some "task", none, "/ws", 30, false⟩).1 = .ok "run-0000aaaa"
  ∧ ((start_run genFixed [] ⟨some "task", none, "/ws", 30, false⟩).2.lookup
      "run-0000aaaa").map (fun r => r.cancel_token) = some none
  ∧ (cancel_run (start_run genFixed [] ⟨some "task", none, "/ws", 30, false⟩).2
      "run-0000aaaa").1 = .ok .Cancelled
  ∧ ((cancel_run (start_run genFixed [] ⟨some "task", none, "/ws", 30, false⟩).2
      "run-0000aaaa").2.lookup "run-0000aaaa").map (fun r => (r.state, r.cancel_token)) =
      some (.Cancelled, none) :=
  ⟨rfl, rfl, rfl, rfl⟩

/-! ## CLI validation (src/app/cli_parser.cpp) -/

/-- Raw option strings gathered by the parser phase, mirroring
`RawCliOptions`. -/
structure RawCliOptions where
  task : Option String
  plan_file : Option String
  cwd : Option String
  max_steps : Option String
  verbose : Bool
deriving DecidableEq, Repr

/-- Parser phase of `parse_and_validate`: read the raw strings. -/
def parseRaw : List String → RawCliOptions → AResult RawCliOptions
  | [], raw => .ok raw
  | "--task" :: [], _ => .error ⟨.Input, "Missing value for --task", "missing_value", ""⟩
  | "--task" :: v :: rest, raw => parseRaw rest { raw with task := some v }
  | "--plan-file" :: [], _ =>
      .error ⟨.Input, "Missing value for --plan-file", "missing_value", ""⟩
  | "--plan-file" :: v :: rest, raw => parseRaw rest { raw with plan_file := some v }
  | "--cwd" :: [], _ => .error ⟨.Input, "Missing value for --cwd", "missing_value", ""⟩
  | "--cwd" :: v :: rest, raw => parseRaw rest { raw with cwd := some v }
  | "--max-steps" :: [], _ =>
      .error ⟨.Input, "Missing value for --max-steps", "missing_value", ""⟩
  | "--max-steps" :: v :: rest, raw => parseRaw rest { raw with max_steps := some v }
  | "--verbose" :: rest, raw => parseRaw rest { raw with verbose := true }
  | arg :: _, _ => .error ⟨.Input, "Unknown argument: " ++ arg, "unknown_argument", ""⟩

/-- ASCII decimal digit test. -/
def isAsciiDigit (c : Char) : Bool := '0' ≤ c && c ≤ '9'

/-- Value of a digit string. -/
def digitsVal (s : List Char) : Nat := s.foldl (fun acc c => acc * 10 + (c.toNat - 48)) 0

/-- Exception-free unsigned parse, mirroring `std::from_chars` into a
`uint32_t` followed by the `ptr != end` check: it succeeds exactly on a
non-empty all-digit string whose value fits in 32 bits. -/
def from_chars_u32 (s : String) : Option Nat :=
  if s.data ≠ [] ∧ s.data.all isAsciiDigit ∧ digitsVal s.data < 4294967296 then
    some (digitsVal s.data)
  else none

/-- Bounds validation of `--max-steps`, mirroring the validator phase. -/
def validate_max_steps : Option String → AResult Nat
  | none => .ok 30
  | some s =>
      match from_chars_u32 s with
      | none =>
          .error ⟨.Input, "Invalid number for --max-steps", "invalid_integer",
                  "Provide a positive integer."⟩
      | some steps =>
          if steps = 0 ∨ steps > 1000 then
            .error ⟨.Input, "--max-steps out of bounds", "bounds_error",
                    "Must be between 1 and 1000."⟩
          else .ok steps

/-- Filesystem oracle for the `--cwd` checks of the CLI validator. -/
structure CliFs where
  pathExists : String → Bool
  isDir : String → Bool
  canonical : String → Option String

/-- Validation of `--cwd`, mirroring the path-validation tail of
`parse_and_validate`; the default working directory is the process
current path. -/
def validate_cwd (fs : CliFs) (current_path : String) : Option String → AResult String
  | none => .ok current_path
  | some c =>
      if fs.pathExists c = false then
        .error ⟨.Input, "Working directory does not exist or is not a directory",
                "invalid_path", ""⟩
      else if fs.isDir c = false then
        .error ⟨.Input, "Working directory does not exist or is not a directory",
                "invalid_path", ""⟩
      else
        match fs.canonical c with
        | none =>
            .error ⟨.Input, "Failed to canonicalize working directory", "invalid_path", ""⟩
        | some p => .ok p

/-- CLI parse and validation, mirroring `agent::app::cli::parse_and_validate`;
`argv` includes the program name, `current_path` models
`std::filesystem::current_path()`. -/
def parse_and_validate (fs : CliFs) (current_path : String) (argv : List String) :
    AResult RunRequest :=
  match argv with
  | [] =>
      .error ⟨.Input, "No command provided.", "missing_command",
              "Usage: agent_cli run --task \"...\""⟩
  | [_] =>
      .error ⟨.Input, "No command provided.", "missing_command",
              "Usage: agent_cli run --task \"...\""⟩
  | _ :: command :: args =>
      if command ≠ "run" then
        .error ⟨.Input, "Unknown command: " ++ command, "unknown_command",
                "Currently only the 'run' command is supported."⟩
      else
        match parseRaw args ⟨none, none, none, none, false⟩ with
        | .error e => .error e
        | .ok raw =>
            if raw.task.isNone && raw.plan_file.isNone then
              .error ⟨.Input, "Must provide either --task or --plan-file",
                      "missing_required_flag", ""⟩
            else if raw.task.isSome && raw.plan_file.isSome then
              .error ⟨.Input, "Cannot provide both --task and --plan-file",
                      "conflicting_flags", ""⟩
            else
              match validate_max_steps raw.max_steps with
              | .error e => .error e
              | .ok ms =>
                  match validate_cwd fs current_path raw.cwd with
                  | .error e => .error e
                  | .ok wd => .ok ⟨raw.task, raw.plan_file, wd, ms, raw.verbose⟩

/-- A trivial CLI filesystem for concrete evaluations. -/
def idCliFs : CliFs := ⟨fun _ => true, fun _ => true, fun p => some p⟩

/-- C8 counterexample: the argv vector run --task "" (an empty task string)
is accepted by parse_and_validate with task_description set to the empty
string, and the resulting request is also accepted by start_run; the
claim's non-emptiness condition is enforced nowhere. -/
theorem C8_counterexample_empty_task_accepted :
    parse_and_validate idCliFs "/cwd" ["agent_cli", "run", "--task", ""] =
      .ok ⟨some "", none, "/cwd", 30, false⟩
  ∧ (start_run genFixed [] ⟨some "", none, "/cwd", 30, false⟩).1 = .ok "run-0000aaaa" :=
  ⟨rfl, rfl⟩

/-- C8 (amended): every RunRequest accepted by parse_and_validate or by
start_run sets exactly one of task_description and plan_file, and a request
violating the XOR is rejected by start_run with an Input-category error;
the emptiness of a set task_description is not checked. -/
theorem C8_accepted_requests_satisfy_xor (fs : CliFs) (cp : String) (argv : List String)
    (gen : Nat → String) (reg : Registry) (request : RunRequest) :
    (∀ req, parse_and_validate fs cp argv = .ok req →
      (req.task_description.isSome = true ↔ req.plan_file.isSome = false))
  ∧ (∀ id, (start_run gen reg request).1 = .ok id →
      (request.task_description.isSome = true ↔ request.plan_file.isSome = false))
  ∧ (request.task_description.isSome = request.plan_file.isSome →
      ∃ e, (start_run gen reg request).1 = .error e ∧ e.category = .Input ∧
        e.code = "invalid_run_request") := by
  refine ⟨fun req hreq => ?_, fun id hid => ?_, fun hsame => ?_⟩
  · unfold parse_and_validate at hreq
    match argv with
    | [] => exact absurd hreq (by simp)
    | [_] => exact absurd hreq (by simp)
    | _ :: command :: args =>
        simp only at hreq
        split at hreq
        · exact absurd hreq (by simp)
        · cases hraw : parseRaw args ⟨none, none, none, none, false⟩ with
          | error e => rw [hraw] at hreq; exact absurd hreq (by simp)
          | ok raw =>
              rw [hraw] at hreq
              simp only at hreq
              split at hreq
              · exact absurd hreq (by simp)
              · split at hreq
                · exact absurd hreq (by simp)
                · rename_i hnotboth hnone hboth
                  cases hms : validate_max_steps raw.max_steps with
                  | error e => rw [hms] at hreq; exact absurd hreq (by simp)
                  | ok ms =>
                      rw [hms] at hreq
                      simp only at hreq
                      cases hwd : validate_cwd fs cp raw.cwd with
                      | error e => rw [hwd] at hreq; exact absurd hreq (by simp)
                      | ok wd =>
                          rw [hwd] at hreq
                          simp only at hreq
                          obtain rfl : (⟨raw.task, raw.plan_file, wd, ms, raw.verbose⟩ :
                              RunRequest) = req := by
                            injection hreq
                          cases htask : raw.task <;> cases hplan : raw.plan_file <;>
                            simp_all
  · unfold start_run at hid
    split at hid
    · exact absurd hid (by simp)
    · split at hid
      · exact absurd hid (by simp)
      · rename_i hnone hboth
        cases htask : request.task_description <;> cases hplan : request.plan_file <;>
          simp_all
  · unfold start_run
    cases htask : request.task_description <;> cases hplan : request.plan_file <;>
      simp_all [Option.isSome, Option.isNone]

/-- C8 witness: the amended theorem applied to a concretely parsed
task-only request. -/
theorem C8_accepted_requests_satisfy_xor_witness :
    ((⟨some "fix issue", none, "/cwd", 30, false⟩ : RunRequest).task_description.isSome = true ↔
      (⟨some "fix issue", none, "/cwd", 30, false⟩ : RunRequest).plan_file.isSome = false) :=
  (C8_accepted_requests_satisfy_xor idCliFs "/cwd" ["agent_cli", "run", "--task", "fix issue"]
    genFixed [] ⟨some "fix issue", none, "/cwd", 30, false⟩).1
    ⟨some "fix issue", none, "/cwd", 30, false⟩ rfl

/-! ## Tool Host: patch header extraction (src/tools/tool_host.cpp)

The patch text is presented as its `std::getline` line list. -/

/-- Header scan of `extract_patch_paths`, including the dedupe set. The
source checks the literal "/dev/null" against the candidate BEFORE the tab
suffix is stripped, then strips the tab suffix, then a leading "a/" or
"b/", drops empties and duplicates, and keeps first-seen order. -/
def extract_go : List (List Char) → List (List Char) → List (List Char)
  | [], _ => []
  | line :: rest, seen =>
      if !("+++ ".data.isPrefixOf line || "--- ".data.isPrefixOf line) then
        extract_go rest seen
      else
        let candidate := line.drop 4
        if candidate = "/dev/null".data then extract_go rest seen
        else
          let candidate := candidate.takeWhile (fun c => c ≠ '\t')
          let candidate :=
            if "a/".data.isPrefixOf candidate || "b/".data.isPrefixOf candidate then
              candidate.drop 2
            else candidate
          if candidate = [] then extract_go rest seen
          else if seen.contains candidate then extract_go rest seen
          else candidate :: extract_go rest (candidate :: seen)

/-- Mirrors `extract_patch_paths` on the line list of the patch text. -/
def extract_patch_paths (patch_lines : List (List Char)) : List (List Char) :=
  extract_go patch_lines []

/-- Decomposition of a path string into filesystem components, as
`std::filesystem::path` iteration produces them on POSIX (an absolute path
starts with the root component "/"; repeated separators collapse; none of
the inputs used here has a trailing separator). -/
def splitOnChar (sep : Char) : List Char → List (List Char)
  | [] => [[]]
  | c :: rest =>
      if c = sep then [] :: splitOnChar sep rest
      else
        match splitOnChar sep rest with
        | [] => [[c]]
        | l :: ls => (c :: l) :: ls

/-- Component list of a path written as text. -/
def parsePath (s : List Char) : List String :=
  let parts := ((splitOnChar '/' s).filter (fun l => l ≠ [])).map (fun l => String.mk l)
  match s with
  | '/' :: _ => "/" :: parts
  | _ => parts

/-- Per-path Policy Guard loop of `ToolHost::apply_patch` (lines 491-497):
the first validation failure aborts with that error. -/
def validate_patch_paths (fs : FsModel) (root : List String) :
    List (List Char) → AResult Unit
  | [] => .ok ()
  | p :: rest =>
      match validate_path_in_workspace fs root (parsePath p) with
      | .error e => .error e
      | .ok _ => validate_patch_paths fs root rest

/-- Front half of `ToolHost::apply_patch`: empty-patch check, header
extraction, invalid_patch_format check, and workspace validation of every
extracted path (the subsequent temp-file write and `patch` subprocess are
process effects outside this claim). -/
def apply_patch_front (fs : FsModel) (root : List String)
    (patch_lines : List (List Char)) : AResult (List (List Char)) :=
  if patch_lines = [] then
    .error ⟨.Input, "Patch text cannot be empty.", "empty_patch", ""⟩
  else
    let paths := extract_patch_paths patch_lines
    if paths = [] then
      .error ⟨.Input, "Patch does not include any file paths.", "invalid_patch_format", ""⟩
    else
      match validate_patch_paths fs root paths with
      | .error e => .error e
      | .ok _ => .ok paths

/-- C5: evaluation at the failing input. Contrary to the claim, a header
whose path is /dev/null followed by a tab-separated timestamp DOES
contribute a path: the source compares the candidate against "/dev/null"
before stripping the tab suffix, so the candidate "/dev/null<tab>..." is
not dropped, and after tab-stripping the surviving path "/dev/null" is
validated against the workspace, where it fails with
path_outside_workspace. -/
theorem C5_dev_null_with_timestamp_contributes_a_path :
    extract_patch_paths
        ["--- /dev/null\t2024-01-01 00:00:00".data, "+++ b/new_file.txt".data,
         "@@ -0,0 +1 @@".data, "+hello".data] =
      ["/dev/null".data, "new_file.txt".data]
  ∧ apply_patch_front idFs ["/", "ws"]
        ["--- /dev/null\t2024-01-01 00:00:00".data, "+++ b/new_file.txt".data,
         "@@ -0,0 +1 @@".data, "+hello".data] =
      .error ⟨.Policy, "Path escapes workspace root: /dev/null",
              "path_outside_workspace", ""⟩
  ∧ extract_patch_paths ["--- /dev/null".data, "+++ b/new_file.txt".data] =
      ["new_file.txt".data] :=
  ⟨rfl, rfl, rfl⟩

/-! ## Tool Host: subprocess supervision (src/tools/tool_host.cpp)

The OS side of `run_shell_command` (pipe data, poll timing, child exit and
the moments at which the shared atomic token is observed set) is an
explicit schedule; the loop body, flag updates and the result mapping are
translated from the source. -/

/-- Structured subprocess outcome, mirroring `ProcessCapture`, with one
ghost field: `spawned` records whether the fork happened (the early
cancelled-before-start return happens before any pipe or fork call). -/
structure ProcessCapture where
  exit_code : Int
  timed_out : Bool
  cancelled : Bool
  stdout_text : List Char
  stderr_text : List Char
  duration_ms : Nat
  spawned : Bool
deriving DecidableEq, Repr

/-- Capability call outcome, mirroring `protocol::ToolResult`. -/
structure ToolResult where
  tool_call_id : String
  success : Bool
  output : String
  error_message : String
  duration_ms : Nat
deriving DecidableEq, Repr, Inhabited

/-- One iteration of the supervision loop as the OS presents it: the value
the cancel-token load observes, whether the elapsed time has exceeded the
timeout, the bytes each pipe yields, whether each pipe reaches EOF, and
whether `waitpid(WNOHANG)` reaps the child in this iteration. -/
structure LoopIter where
  tokenSet : Bool
  elapsedOver : Bool
  stdoutChunk : List Char
  stderrChunk : List Char
  stdoutEof : Bool
  stderrEof : Bool
  childExits : Bool
deriving DecidableEq, Repr

/-- How the child finally terminated (WIFEXITED / WIFSIGNALED / neither). -/
inductive ExitStatus where
  | exited (code : Nat)
  | signalled (sig : Nat)
  | unknown
deriving DecidableEq, Repr

/-- OS schedule of one `run_shell_command` call. -/
structure ShellSchedule where
  pipeOk : Bool
  forkOk : Bool
  tokenAtStart : Bool
  iters : List LoopIter
  exitStatus : ExitStatus
  durationMs : Nat
deriving DecidableEq, Repr

/-- Mutable state of the supervision loop. -/
structure LoopState where
  cancelled : Bool
  timedOut : Bool
  childExited : Bool
  stdoutOpen : Bool
  stderrOpen : Bool
  stdoutBuf : List Char
  stderrBuf : List Char
deriving DecidableEq, Repr

/-- One pass of the supervision loop body (tool_host.cpp lines 166-211):
observe the token (kill only if the child has not exited), check the
timeout, drain both pipes, then reap non-blockingly. -/
def supervise_iter (hasTok : Bool) (timeout_ms : Nat) (st : LoopState) (it : LoopIter) :
    LoopState :=
  { cancelled := st.cancelled || (hasTok && it.tokenSet && !st.childExited)
    timedOut := st.timedOut ||
      (decide (0 < timeout_ms) && it.elapsedOver && !st.childExited)
    childExited := st.childExited || it.childExits
    stdoutOpen := st.stdoutOpen && !it.stdoutEof
    stderrOpen := st.stderrOpen && !it.stderrEof
    stdoutBuf := st.stdoutBuf ++ (if st.stdoutOpen then it.stdoutChunk else [])
    stderrBuf := st.stderrBuf ++ (if st.stderrOpen then it.stderrChunk else []) }

/-- The supervision loop: run while a pipe is open or the child is
unreaped, consuming the schedule. -/
def supervise (hasTok : Bool) (timeout_ms : Nat) : LoopState → List LoopIter → LoopState
  | st, [] => st
  | st, it :: rest =>
      if st.childExited && !st.stdoutOpen && !st.stderrOpen then st
      else supervise hasTok timeout_ms (supervise_iter hasTok timeout_ms st it) rest

/-- Exit-code computation (tool_host.cpp lines 218-224). -/
def exitCodeOf : ExitStatus → Int
  | .exited c => c
  | .signalled s => 128 + s
  | .unknown => -1

/-- Mirrors `run_shell_command`: early return when the token is already
set (before any pipe or fork), then pipe and fork failures, then the
supervision loop and the exit-status computation. -/
def run_shell_command (_command : List Char) (_cwd : List String) (timeout_ms : Nat)
    (hasTok : Bool) (sched : ShellSchedule) : AResult ProcessCapture :=
  if hasTok && sched.tokenAtStart then
    .ok ⟨-1, false, true, [], "Command cancelled before start.".data, 0, false⟩
  else if !sched.pipeOk then
    .error ⟨.Internal, "Failed to create process pipes.", "pipe_creation_failed", ""⟩
  else if !sched.forkOk then
    .error ⟨.Internal, "Failed to fork process.", "fork_failed", ""⟩
  else
    let st := supervise hasTok timeout_ms ⟨false, false, false, true, true, [], []⟩ sched.iters
    .ok ⟨exitCodeOf sched.exitStatus, st.timedOut, st.cancelled, st.stdoutBuf,
         st.stderrBuf, sched.durationMs, true⟩

/-- Command-tool request, mirroring `CommandRequest`; the shared token
pointer is reduced to its null test (its observed values live in the
schedule). -/
structure CommandRequestM where
  command : String
  working_directory : List String
  timeout_ms : Nat
  hasCancelToken : Bool
deriving Repr

/-- Mirrors `ToolHost::run_command`: policy validation of command and cwd,
the subprocess call, and the capture-to-ToolResult mapping (cancelled
first, then timed out, then the exit code). -/
def run_command (fs : FsModel) (workspace_root : List String) (req : CommandRequestM)
    (sched : ShellSchedule) : AResult ToolResult :=
  match validate_command default_blocked_substrings req.command with
  | .error e => .error e
  | .ok cmd =>
      match validate_path_in_workspace fs workspace_root req.working_directory with
      | .error e => .error e
      | .ok cwd =>
          match run_shell_command cmd.data cwd req.timeout_ms req.hasCancelToken sched with
          | .error e => .error e
          | .ok capture =>
              let em := String.mk capture.stderr_text
              if capture.cancelled then
                .ok ⟨"run_command", false, String.mk capture.stdout_text,
                     (if em = "" then em else em ++ "\n") ++ "Command cancelled.",
                     capture.duration_ms⟩
              else if capture.timed_out then
                .ok ⟨"run_command", false, String.mk capture.stdout_text,
                     (if em = "" then em else em ++ "\n") ++ "Command timed out.",
                     capture.duration_ms⟩
              else
                .ok ⟨"run_command", capture.exit_code = 0, String.mk capture.stdout_text,
                     (if capture.exit_code ≠ 0 ∧ em = "" then
                        "Command failed with exit code " ++ toString capture.exit_code
                      else em),
                     capture.duration_ms⟩

/-- The schedule observes the token set at some iteration that the child
cannot have been reaped before (no earlier iteration reaps it). -/
def observedBeforeReap : List LoopIter → Bool
  | [] => false
  | it :: rest => it.tokenSet || (!it.childExits && observedBeforeReap rest)

theorem supervise_cancelled_mono (tm : Nat) (iters : List LoopIter) (st : LoopState)
    (h : st.cancelled = true) : (supervise true tm st iters).cancelled = true := by
  induction iters generalizing st with
  | nil => exact h
  | cons it rest ih =>
      rw [supervise]
      split
      · exact h
      · exact ih _ (by simp [supervise_iter, h])

theorem supervise_cancelled_of_observed (tm : Nat) (iters : List LoopIter) :
    ∀ st : LoopState, st.childExited = false → observedBeforeReap iters = true →
    (supervise true tm st iters).cancelled = true := by
  induction iters with
  | nil =>
      intro st _ hobs
      simp [observedBeforeReap] at hobs
  | cons it rest ih =>
      intro st hchild hobs
      rw [supervise, if_neg (by simp [hchild])]
      cases htok : it.tokenSet
      · rw [observedBeforeReap, htok] at hobs
        simp only [Bool.false_or, Bool.and_eq_true] at hobs
        obtain ⟨hnc, hrest⟩ := hobs
        have hc : it.childExits = false := by
          cases h : it.childExits
          · rfl
          · rw [h] at hnc; exact absurd hnc (by simp)
        exact ih _ (by simp [supervise_iter, hchild, hc]) hrest
      · exact supervise_cancelled_mono tm rest _ (by simp [supervise_iter, htok, hchild])

theorem containsSub_append_left (a b needle : List Char)
    (h : containsSub b needle = true) : containsSub (a ++ b) needle = true := by
  induction a with
  | nil => exact h
  | cons c t ih =>
      cases b with
      | nil =>
          cases needle with
          | nil => simp [containsSub]
          | cons n nt => simp [containsSub] at h
      | cons b0 bt =>
          rw [List.cons_append, containsSub]
          rw [ih]
          simp

theorem string_data_append (a b : String) : (a ++ b).data = a.data ++ b.data := by
  cases a
  cases b
  rfl

theorem contains_cancelled_suffix (s : String) :
    containsSub (s ++ "Command cancelled.").data "cancelled".data = true := by
  rw [string_data_append]
  exact containsSub_append_left s.data _ _ (by rfl)

theorem run_shell_cancelled (cmd : List Char) (cwd : List String) (tm : Nat)
    (sched : ShellSchedule)
    (hobs : sched.tokenAtStart = true ∨ observedBeforeReap sched.iters = true) :
    ∀ capture, run_shell_command cmd cwd tm true sched = .ok capture →
      capture.cancelled = true := by
  intro capture hc
  unfold run_shell_command at hc
  split at hc
  · injection hc with h
    rw [← h]
  · split at hc
    · exact absurd hc (by simp)
    · split at hc
      · exact absurd hc (by simp)
      · rename_i hnotstart _ _
        injection hc with h
        rw [← h]
        rcases hobs with hstart | hobs'
        · exact absurd (by simp [hstart]) hnotstart
        · exact supervise_cancelled_of_observed tm sched.iters _ rfl hobs'

/-- C6 counterexample: the claim quantifies over every invocation whose
token is set during supervision, but when the token is only observed set
after the child has been reaped (while the loop is still draining pipes),
the source ignores it: here the child exits with code 0 in the first
iteration, the token reads true in the second, and run_command returns
success=true with an empty error_message that does not contain
"cancelled". -/
theorem C6_counterexample_token_set_after_reap :
    ((⟨true, true, false,
        [⟨false, false, "hi\n".data, [], false, false, true⟩,
         ⟨true, false, [], [], true, true, false⟩],
        .exited 0, 1⟩ : ShellSchedule).iters.any (fun it => it.tokenSet)) = true
  ∧ run_command idFs ["/", "ws"] ⟨"echo hi", ["."], 5000, true⟩
      ⟨true, true, false,
        [⟨false, false, "hi\n".data, [], false, false, true⟩,
         ⟨true, false, [], [], true, true, false⟩],
        .exited 0, 1⟩ =
      .ok ⟨"run_command", true, "hi\n", "", 1⟩
  ∧ containsSub ("" : String).data "cancelled".data = false :=
  ⟨rfl, rfl, rfl⟩

/-- C6 (amended): for every run_command invocation whose cancel token is
set before spawn, or observed set during supervision while the child has
not yet been reaped, the returned ToolResult has success=false and its
error_message contains the substring "cancelled"; when the token is set
before spawn, no child process is created (the capture's spawned flag is
false) and the capture's message is exactly "Command cancelled before
start.". -/
theorem C6_cancellation_observed_before_reap (fs : FsModel) (root : List String)
    (req : CommandRequestM) (sched : ShellSchedule)
    (htok : req.hasCancelToken = true)
    (hobs : sched.tokenAtStart = true ∨ observedBeforeReap sched.iters = true) :
    (∀ r, run_command fs root req sched = .ok r →
      r.success = false ∧ containsSub r.error_message.data "cancelled".data = true)
  ∧ (sched.tokenAtStart = true →
      ∀ cmd cwd tm, run_shell_command cmd cwd tm true sched =
        .ok ⟨-1, false, true, [], "Command cancelled before start.".data, 0, false⟩) := by
  constructor
  · intro r hr
    unfold run_command at hr
    cases hvc : validate_command default_blocked_substrings req.command with
    | error e => rw [hvc] at hr; exact absurd hr (by simp)
    | ok cmd =>
        rw [hvc] at hr
        simp only at hr
        cases hvp : validate_path_in_workspace fs root req.working_directory with
        | error e => rw [hvp] at hr; exact absurd hr (by simp)
        | ok cwd =>
            rw [hvp] at hr
            simp only at hr
            cases hrs : run_shell_command cmd.data cwd req.timeout_ms
                req.hasCancelToken sched with
            | error e => rw [hrs] at hr; exact absurd hr (by simp)
            | ok capture =>
                rw [htok] at hrs
                have hcanc : capture.cancelled = true :=
                  run_shell_cancelled cmd.data cwd req.timeout_ms sched hobs capture hrs
                rw [htok, hrs] at hr
                simp only [hcanc, if_true] at hr
                obtain rfl : _ = r := by injection hr
                refine ⟨rfl, ?_⟩
                exact contains_cancelled_suffix _
  · intro hstart cmd cwd tm
    unfold run_shell_command
    simp [hstart]

/-- C6 witness: a schedule whose single supervision iteration observes the
token set while the child is not yet reaped yields a failed ToolResult
whose error message is "Command cancelled." and contains "cancelled". -/
theorem C6_cancellation_observed_before_reap_witness :
    (⟨"run_command", false, "", "Command cancelled.", 7⟩ : ToolResult).success = false
  ∧ containsSub ("Command cancelled." : String).data "cancelled".data = true :=
  (C6_cancellation_observed_before_reap idFs ["/", "ws"] ⟨"echo hi", ["."], 5000, true⟩
    ⟨true, true, false, [⟨true, false, [], [], true, true, true⟩], .signalled 9, 7⟩
    rfl (Or.inr rfl)).1 ⟨"run_command", false, "", "Command cancelled.", 7⟩ rfl

/-! ## Protocol types and the Deterministic Executor
(src/protocol/run_execution_contract.hpp, src/runtime/deterministic_executor.cpp)

The Tool Host, as seen by the executor, is an oracle with the four
capability signatures; the executor's own control flow is translated from
the source. -/

/-- Step kinds, mirroring `RunStepType`. -/
inductive RunStepType where
  | InspectRequest
  | LoadContext
  | ExecuteCommand
  | ApplyPatch
  | BuildReport
deriving DecidableEq, Repr, Inhabited

/-- Snake-case rendering, mirroring `protocol::to_string(RunStepType)`. -/
def runStepTypeString : RunStepType → String
  | .InspectRequest => "inspect_request"
  | .LoadContext => "load_context"
  | .ExecuteCommand => "execute_command"
  | .ApplyPatch => "apply_patch"
  | .BuildReport => "build_report"

/-- Mirrors `RunStep`. -/
structure RunStep where
  id : String
  type : RunStepType
  success : Bool
  output : String
deriving DecidableEq, Repr, Inhabited

/-- Mirrors `RunStatus`. -/
inductive RunStatus where
  | Completed
  | Failed
deriving DecidableEq, Repr

/-- Rendering, mirroring `protocol::to_string(RunStatus)`. -/
def runStatusString : RunStatus → String
  | .Completed => "completed"
  | .Failed => "failed"

/-- Mirrors `RunResult`. -/
structure RunResult where
  run_id : String
  status : RunStatus
  steps : List RunStep
  summary : String
deriving DecidableEq, Repr

/-- Mirrors `SearchRequest` at the executor boundary. -/
structure SearchRequestE where
  pattern : String
  scope : String
  max_matches : Nat
deriving DecidableEq, Repr

/-- Mirrors `CommandRequest` at the executor boundary; the shared token
is carried opaquely. -/
structure CommandRequestE where
  command : String
  working_directory : String
  timeout_ms : Nat
  cancel_token : Option Bool
deriving DecidableEq, Repr

/-- Mirrors `PatchRequest` at the executor boundary. -/
structure PatchRequestE where
  patch_text : String
  timeout_ms : Nat
  cancel_token : Option Bool
deriving DecidableEq, Repr

/-- The Tool Host capability surface as the executor consumes it. -/
structure ToolOracle where
  read_file : String → String → AResult ToolResult
  search : String → SearchRequestE → AResult ToolResult
  run_command : String → CommandRequestE → AResult ToolResult
  apply_patch : String → PatchRequestE → AResult ToolResult

/-- ASCII isalnum of `std::isalnum` in the C locale. -/
def isAlnum (c : Char) : Bool :=
  ('0' ≤ c && c ≤ '9') || ('A' ≤ c && c ≤ 'Z') || ('a' ≤ c && c ≤ 'z')

/-- Character loop of `pick_search_pattern`: either an early return (inr)
or the final token and fallback at end of input (inl). -/
def pick_loop : List Char → List Char → List Char → (List Char × List Char) ⊕ List Char
  | [], token, fallback => .inl (token, fallback)
  | c :: rest, token, fallback =>
      if isAlnum c then pick_loop rest (token ++ [c]) fallback
      else if token ≠ [] then
        let fallback := if fallback = [] then token else fallback
        if token.length ≥ 4 then .inr token
        else pick_loop rest [] fallback
      else pick_loop rest token fallback

/-- Mirrors `pick_search_pattern`: first alphanumeric token of length at
least 4, else the first token, else "TODO". -/
def pick_search_pattern (task : String) : String :=
  match pick_loop task.data [] [] with
  | .inr token => String.mk token
  | .inl (token, fallback) =>
      let fallback := if token ≠ [] ∧ fallback = [] then token else fallback
      if token ≠ [] ∧ token.length ≥ 4 then String.mk token
      else if fallback ≠ [] then String.mk fallback
      else "TODO"

/-- Mirrors `looks_like_patch`. -/
def looks_like_patch (text : String) : Bool :=
  containsSub text.data "+++ ".data && containsSub text.data "--- ".data

/-- Tail of `DeterministicExecutor::execute` after the LoadContext step:
the fixed probe command, the conditional ApplyPatch step, the BuildReport
step and the summary. Only the request's working_directory reaches this
point in the source, so it is passed directly. -/
def execute_after_context (tools : ToolOracle) (run_id : String)
    (working_directory : String) (cancel_token : Option Bool)
    (inspect_step context_step : RunStep) (plan_contents : String) : AResult RunResult :=
  match tools.run_command working_directory
      ⟨"echo command_runner_ok", ".", 2000, cancel_token⟩ with
  | .error e => .error e
  | .ok ctr =>
      if ctr.success = false then
        .error ⟨.Execution, "Command step failed: " ++ ctr.error_message,
                "command_failed", ""⟩
      else
        let command_step : RunStep := ⟨"step-3", .ExecuteCommand, true, ctr.output⟩
        if plan_contents ≠ "" ∧ looks_like_patch plan_contents = true then
          match tools.apply_patch working_directory ⟨plan_contents, 4000, cancel_token⟩ with
          | .error e => .error e
          | .ok ptr =>
              if ptr.success = false then
                .error ⟨.Execution, "Patch step failed: " ++ ptr.error_message,
                        "apply_patch_failed", ""⟩
              else
                let steps := [inspect_step, context_step, command_step,
                  ⟨"step-4", .ApplyPatch, true, "Patch applied successfully."⟩,
                  ⟨"step-5", .BuildReport, true, "Prepared deterministic report context"⟩]
                .ok ⟨run_id, .Completed, steps,
                     "Deterministic execution completed with " ++
                       toString steps.length ++ " steps."⟩
        else
          let steps := [inspect_step, context_step, command_step,
            ⟨"step-4", .BuildReport, true, "Prepared deterministic report context"⟩]
          .ok ⟨run_id, .Completed, steps,
               "Deterministic execution completed with " ++
                 toString steps.length ++ " steps."⟩

/-- Mirrors `DeterministicExecutor::execute`: InspectRequest, LoadContext
(plan mode reads the plan file, task mode searches with the derived
pattern), then the shared tail. String length stands for the byte count of
the plan contents. -/
def execute (tools : ToolOracle) (run_id : String) (request : RunRequest)
    (cancel_token : Option Bool) : AResult RunResult :=
  let inspect_step : RunStep :=
    ⟨"step-1", .InspectRequest, true,
     if request.plan_file.isSome then "mode=plan_file" else "mode=task"⟩
  match request.plan_file with
  | some plan_file =>
      match tools.read_file request.working_directory plan_file with
      | .error e => .error e
      | .ok tr =>
          if tr.success = false then
            .error ⟨.Execution, "Failed to read plan file: " ++ tr.error_message,
                    "plan_file_read_failed", ""⟩
          else
            execute_after_context tools run_id request.working_directory cancel_token
              inspect_step
              ⟨"step-2", .LoadContext, true,
               "Loaded plan file (" ++ toString tr.output.length ++ " bytes)"⟩
              tr.output
  | none =>
      match request.task_description with
      | some task =>
          match tools.search request.working_directory
              ⟨pick_search_pattern task, ".", 12⟩ with
          | .error e => .error e
          | .ok sr =>
              if sr.success = false then
                .error ⟨.Execution, "Search failed: " ++ sr.error_message,
                        "search_failed", ""⟩
              else
                execute_after_context tools run_id request.working_directory cancel_token
                  inspect_step
                  ⟨"step-2", .LoadContext, true, "Task: " ++ task ++ "\n" ++ sr.output⟩
                  ""
      | none =>
          .error ⟨.Input, "Request has neither task nor plan file.",
                  "invalid_run_request", ""⟩

/-- C10: the result of the deterministic executor depends on the request
only through task_description, plan_file and working_directory: two
requests differing only in max_steps and verbose produce identical
results (same steps, summary and status), so max_steps never limits the
pipeline. -/
theorem C10_execute_ignores_max_steps_and_verbose (tools : ToolOracle) (run_id : String)
    (cancel : Option Bool) (r1 r2 : RunRequest)
    (htask : r1.task_description = r2.task_description)
    (hplan : r1.plan_file = r2.plan_file)
    (hwd : r1.working_directory = r2.working_directory) :
    execute tools run_id r1 cancel = execute tools run_id r2 cancel := by
  obtain ⟨t1, p1, w1, m1, v1⟩ := r1
  obtain ⟨t2, p2, w2, m2, v2⟩ := r2
  simp only at htask hplan hwd
  subst htask
  subst hplan
  subst hwd
  rfl

/-- An oracle whose four capabilities all succeed with fixed outputs; used
for concrete evaluations of the executor. -/
def allOkTools : ToolOracle :=
  { read_file := fun _ _ => .ok ⟨"read_file", true, "contents", "", 1⟩
    search := fun _ _ => .ok ⟨"search", true, "out", "", 1⟩
    run_command := fun _ _ => .ok ⟨"run_command", true, "command_runner_ok\n", "", 1⟩
    apply_patch := fun _ _ => .ok ⟨"apply_patch", true, "", "", 1⟩ }

/-- C10 witness: two concrete requests differing only in max_steps and
verbose give identical executor results under the all-ok oracle. -/
theorem C10_execute_ignores_max_steps_and_verbose_witness :
    execute allOkTools "run-1" ⟨some "find the needle", none, "/ws", 10, false⟩ none =
      execute allOkTools "run-1" ⟨some "find the needle", none, "/ws", 999, true⟩ none :=
  C10_execute_ignores_max_steps_and_verbose allOkTools "run-1" none
    ⟨some "find the needle", none, "/ws", 10, false⟩
    ⟨some "find the needle", none, "/ws", 999, true⟩ rfl rfl rfl

/-! ## Driver trace (src/app/main.cpp lines 65-104)

The observable order of step execution and step journaling in the driver:
`executor.execute` runs the whole pipeline and returns the step list, and
only then does main loop over `result.steps` calling
`artifact_writer.write_step`, aborting on the first write failure. -/

/-- One observable driver action: a pipeline step executing inside
`DeterministicExecutor::execute`, or that step being journaled by
`ArtifactWriter::write_step` from the driver loop. -/
inductive DriverAction where
  | execStep (s : RunStep)
  | journalStep (s : RunStep)
deriving DecidableEq, Repr

/-- The journal half of the driver loop: steps are written in order until
the first failing write (jOk says whether the i-th write succeeds),
mirroring the for loop of main.cpp lines 92-104. -/
def journalActions : List RunStep → (Nat → Bool) → Nat → List DriverAction
  | [], _, _ => []
  | s :: rest, jOk, i =>
      if jOk i then .journalStep s :: journalActions rest jOk (i + 1) else []

/-- Steps of a successful execution (empty when execute errors, in which
case main writes no step artifacts). -/
def executedSteps (tools : ToolOracle) (run_id : String) (request : RunRequest)
    (cancel : Option Bool) : List RunStep :=
  match execute tools run_id request cancel with
  | .ok result => result.steps
  | .error _ => []

/-- The driver's action trace: all steps execute inside
`executor.execute`, then the journal loop runs. -/
def mainTrace (tools : ToolOracle) (run_id : String) (request : RunRequest)
    (cancel : Option Bool) (jOk : Nat → Bool) : List DriverAction :=
  match execute tools run_id request cancel with
  | .error _ => []
  | .ok result => result.steps.map .execStep ++ journalActions result.steps jOk 0

/-- The claim's temporal property: every step is journaled before the next
step of the pipeline runs. -/
def journalledBeforeNextStep (t : List DriverAction) (steps : List RunStep) : Prop :=
  ∀ i, i < steps.length - 1 →
    t.indexOf (.journalStep (steps.getD i default)) <
      t.indexOf (.execStep (steps.getD (i + 1) default))

instance (t : List DriverAction) (steps : List RunStep) :
    Decidable (journalledBeforeNextStep t steps) := by
  unfold journalledBeforeNextStep
  infer_instance

/-- Steps recovered from the journal actions of a trace: the content of
the artifact log. -/
def journalledSteps (t : List DriverAction) : List RunStep :=
  t.filterMap (fun a => match a with | .journalStep s => some s | _ => none)

/-- C2 counterexample: under the all-ok oracle and always-succeeding
journal writes, the trace of a concrete task run executes all four
pipeline steps before journaling the first one, so the first step is not
journaled before the second step runs. -/
theorem C2_counterexample_steps_execute_before_journaling :
    ¬ journalledBeforeNextStep
        (mainTrace allOkTools "run-1" ⟨some "find the needle", none, "/ws", 30, false⟩
          none (fun _ => true))
        (executedSteps allOkTools "run-1" ⟨some "find the needle", none, "/ws", 30, false⟩
          none) := by
  decide

theorem journalActions_take (steps : List RunStep) (jOk : Nat → Bool) :
    ∀ i, ∃ k, journalledSteps (journalActions steps jOk i) = steps.take k := by
  induction steps with
  | nil => exact fun i => ⟨0, rfl⟩
  | cons s rest ih =>
      intro i
      rw [journalActions]
      by_cases h : jOk i = true
      · obtain ⟨k, hk⟩ := ih (i + 1)
        refine ⟨k + 1, ?_⟩
        simp [h, journalledSteps, List.take_succ_cons] at hk ⊢
        exact hk
      · refine ⟨0, ?_⟩
        simp only [Bool.not_eq_true] at h
        simp [h, journalledSteps]

theorem journalledSteps_exec_append (steps : List RunStep) (t : List DriverAction) :
    journalledSteps (steps.map .execStep ++ t) = journalledSteps t := by
  induction steps with
  | nil => rfl
  | cons s rest ih => simp only [List.map_cons, List.cons_append, journalledSteps,
      List.filterMap_cons]; exact ih

theorem execute_after_context_types (tools : ToolOracle) (rid wd : String)
    (c : Option Bool) (inspect_step context_step : RunStep) (pc : String)
    (result : RunResult)
    (h : execute_after_context tools rid wd c inspect_step context_step pc = .ok result) :
    result.steps.map (fun s => s.type) =
        [inspect_step.type, context_step.type, .ExecuteCommand, .BuildReport]
    ∨ result.steps.map (fun s => s.type) =
        [inspect_step.type, context_step.type, .ExecuteCommand, .ApplyPatch,
         .BuildReport] := by
  unfold execute_after_context at h
  cases hc : tools.run_command wd ⟨"echo command_runner_ok", ".", 2000, c⟩ with
  | error e => rw [hc] at h; exact absurd h (by simp)
  | ok ctr =>
      rw [hc] at h
      simp only at h
      split at h
      · exact absurd h (by simp)
      · split at h
        · cases hp : tools.apply_patch wd ⟨pc, 4000, c⟩ with
          | error e => rw [hp] at h; exact absurd h (by simp)
          | ok ptr =>
              rw [hp] at h
              simp only at h
              split at h
              · exact absurd h (by simp)
              · right
                obtain rfl : _ = result := by injection h
                rfl
        · left
          obtain rfl : _ = result := by injection h
          rfl

theorem execute_step_types (tools : ToolOracle) (rid : String) (request : RunRequest)
    (c : Option Bool) (result : RunResult)
    (h : execute tools rid request c = .ok result) :
    result.steps.map (fun s => s.type) =
        [.InspectRequest, .LoadContext, .ExecuteCommand, .BuildReport]
    ∨ result.steps.map (fun s => s.type) =
        [.InspectRequest, .LoadContext, .ExecuteCommand, .ApplyPatch, .BuildReport] := by
  unfold execute at h
  cases hpf : request.plan_file with
  | some plan_file =>
      rw [hpf] at h
      simp only at h
      cases hr : tools.read_file request.working_directory plan_file with
      | error e => rw [hr] at h; exact absurd h (by simp)
      | ok tr =>
          rw [hr] at h
          simp only at h
          split at h
          · exact absurd h (by simp)
          · exact execute_after_context_types _ _ _ _ _ _ _ _ h
  | none =>
      rw [hpf] at h
      simp only at h
      cases htd : request.task_description with
      | some task =>
          rw [htd] at h
          simp only at h
          cases hs : tools.search request.working_directory
              ⟨pick_search_pattern task, ".", 12⟩ with
          | error e => rw [hs] at h; exact absurd h (by simp)
          | ok sr =>
              rw [hs] at h
              simp only at h
              split at h
              · exact absurd h (by simp)
              · exact execute_after_context_types _ _ _ _ _ _ _ _ h
      | none =>
          rw [htd] at h
          exact absurd h (by simp)

/-- C2 (amended): the driver executes the whole pipeline first and only
then journals the steps: the trace is all step executions (in the
pipeline order of section 4.F, with ApplyPatch present exactly in the
patch case) followed by the journal writes in the same order up to the
first write failure, so the artifact log always holds a prefix of the
executed steps in order, but a step is not journaled before the next step
runs. -/
theorem C2_journal_is_ordered_prefix_after_execution (tools : ToolOracle) (rid : String)
    (request : RunRequest) (c : Option Bool) (jOk : Nat → Bool) (result : RunResult)
    (h : execute tools rid request c = .ok result) :
    mainTrace tools rid request c jOk =
        result.steps.map .execStep ++ journalActions result.steps jOk 0
    ∧ (∃ k, journalledSteps (mainTrace tools rid request c jOk) = result.steps.take k)
    ∧ (result.steps.map (fun s => s.type) =
          [.InspectRequest, .LoadContext, .ExecuteCommand, .BuildReport]
        ∨ result.steps.map (fun s => s.type) =
          [.InspectRequest, .LoadContext, .ExecuteCommand, .ApplyPatch,
           .BuildReport]) := by
  refine ⟨by simp [mainTrace, h], ?_, execute_step_types tools rid request c result h⟩
  obtain ⟨k, hk⟩ := journalActions_take result.steps jOk 0
  refine ⟨k, ?_⟩
  rw [mainTrace, h]
  simp only
  rw [journalledSteps_exec_append]
  exact hk

/-- C2 witness: the amended theorem, instantiated at a concrete task run
under the all-ok oracle, yields the ordered-prefix property of the
journal. -/
theorem C2_journal_is_ordered_prefix_after_execution_witness :
    ∃ k, journalledSteps
        (mainTrace allOkTools "run-1" ⟨some "find the needle", none, "/ws", 30, false⟩
          none (fun _ => true)) =
      [(⟨"step-1", .InspectRequest, true, "mode=task"⟩ : RunStep),
       ⟨"step-2", .LoadContext, true, "Task: find the needle\nout"⟩,
       ⟨"step-3", .ExecuteCommand, true, "command_runner_ok\n"⟩,
       ⟨"step-4", .BuildReport, true, "Prepared deterministic report context"⟩].take k :=
  (C2_journal_is_ordered_prefix_after_execution allOkTools "run-1"
    ⟨some "find the needle", none, "/ws", 30, false⟩ none (fun _ => true)
    ⟨"run-1", .Completed,
     [⟨"step-1", .InspectRequest, true, "mode=task"⟩,
      ⟨"step-2", .LoadContext, true, "Task: find the needle\nout"⟩,
      ⟨"step-3", .ExecuteCommand, true, "command_runner_ok\n"⟩,
      ⟨"step-4", .BuildReport, true, "Prepared deterministic report context"⟩],
     "Deterministic execution completed with 4 steps."⟩ (by rfl)).2.1

/-! ## Artifact Writer (src/session/artifact_writer.cpp)

Events are nlohmann json objects dumped without indentation; nlohmann
stores object members in a std::map, so keys serialise in lexicographic
order, and `dump()` escapes control characters (newline becomes a two-byte
escape), so one dumped event never contains a raw newline. The log file is
modelled as its byte list; `append_event` appends the dumped event and one
newline. Path resolution and I/O failures of the writer append nothing and
are outside this pure model. -/

/-- Lowercase hex digit table used by the escape serialiser. -/
def hexDigitChars : List Char := "0123456789abcdef".data

/-- Hex digit of a value below 16. -/
def toHexDigit (n : Nat) : Char := hexDigitChars.getD n '0'

theorem getD_ne_newline (l : List Char) (d : Char) (hl : ∀ c ∈ l, c ≠ '\n')
    (hd : d ≠ '\n') : ∀ n, l.getD n d ≠ '\n' := by
  induction l with
  | nil => intro n; simpa [List.getD] using hd
  | cons c t ih =>
      intro n
      cases n with
      | zero => exact hl c (by simp)
      | succ m => exact ih (fun x hx => hl x (by simp [hx])) m

theorem toHexDigit_ne_newline (n : Nat) : toHexDigit n ≠ '\n' :=
  getD_ne_newline hexDigitChars '0' (by decide) (by decide) n

/-- Decimal digits of a natural number (fuel-based division loop). -/
def natCharsAux : Nat → Nat → List Char
  | 0, _ => []
  | fuel + 1, n =>
      if n < 10 then [toHexDigit n]
      else natCharsAux fuel (n / 10) ++ [toHexDigit (n % 10)]

/-- Decimal rendering of a natural number, as nlohmann dumps an unsigned
integer. -/
def natChars (n : Nat) : List Char := natCharsAux (n + 1) n

theorem natCharsAux_no_newline : ∀ fuel n, '\n' ∉ natCharsAux fuel n := by
  intro fuel
  induction fuel with
  | zero => intro n; simp [natCharsAux]
  | succ f ih =>
      intro n
      rw [natCharsAux]
      split
      · intro h
        simp only [List.mem_cons, List.not_mem_nil, or_false] at h
        exact toHexDigit_ne_newline n h.symm
      · intro h
        rcases List.mem_append.mp h with h | h
        · exact ih (n / 10) h
        · simp only [List.mem_cons, List.not_mem_nil, or_false] at h
          exact toHexDigit_ne_newline (n % 10) h.symm

theorem natChars_no_newline (n : Nat) : '\n' ∉ natChars n :=
  natCharsAux_no_newline (n + 1) n

/-- Character escaping of nlohmann `dump()`: quote, backslash and the
named control escapes become two-character escapes, remaining control
characters become a six-character \u escape, anything else is emitted
verbatim. -/
def escapeChar (c : Char) : List Char :=
  if c = '"' then ['\\', '"']
  else if c = '\\' then ['\\', '\\']
  else if c = '\x08' then ['\\', 'b']
  else if c = '\x0c' then ['\\', 'f']
  else if c = '\n' then ['\\', 'n']
  else if c = '\r' then ['\\', 'r']
  else if c = '\t' then ['\\', 't']
  else if c.toNat < 32 then
    ['\\', 'u', '0', '0', toHexDigit (c.toNat / 16), toHexDigit (c.toNat % 16)]
  else [c]

theorem escapeChar_no_newline (c : Char) : '\n' ∉ escapeChar c := by
  unfold escapeChar
  split_ifs with h1 h2 h3 h4 h5 h6 h7 h8
  · decide
  · decide
  · decide
  · decide
  · decide
  · decide
  · decide
  · intro hmem
    simp only [List.mem_cons, List.not_mem_nil, or_false] at hmem
    rcases hmem with h | h | h | h | h | h
    · exact absurd h (by decide)
    · exact absurd h (by decide)
    · exact absurd h (by decide)
    · exact absurd h (by decide)
    · exact toHexDigit_ne_newline _ h.symm
    · exact toHexDigit_ne_newline _ h.symm
  · intro hmem
    simp only [List.mem_cons, List.not_mem_nil, or_false] at hmem
    rw [← hmem] at h8
    exact h8 (by decide)

/-- Escaped serialisation of a raw character sequence. -/
def escapeChars (s : List Char) : List Char := (s.map escapeChar).flatten

theorem escapeChars_no_newline (s : List Char) : '\n' ∉ escapeChars s := by
  intro h
  obtain ⟨l, hl, hmem⟩ := List.mem_flatten.mp h
  obtain ⟨c, _, rfl⟩ := List.mem_map.mp hl
  exact escapeChar_no_newline c hmem

theorem no_newline_append {a b : List Char} (ha : '\n' ∉ a) (hb : '\n' ∉ b) :
    '\n' ∉ a ++ b := by
  intro h
  rcases List.mem_append.mp h with h | h
  · exact ha h
  · exact hb h

theorem no_newline_cons {c : Char} {l : List Char} (hc : c ≠ '\n') (hl : '\n' ∉ l) :
    '\n' ∉ c :: l := by
  intro h
  rcases List.mem_cons.mp h with h | h
  · exact hc h.symm
  · exact hl h

/-- The JSON value subset the artifact events use. -/
inductive Json where
  | null
  | b (v : Bool)
  | num (n : Nat)
  | str (s : String)
  | obj (members : List (String × Json))

mutual

/-- Serialisation of one JSON value, as nlohmann `dump()` emits it (no
indentation, members already in the lexicographic order the std::map
storage gives them). -/
def dumpJson : Json → List Char
  | .null => ['n', 'u', 'l', 'l']
  | .b true => ['t', 'r', 'u', 'e']
  | .b false => ['f', 'a', 'l', 's', 'e']
  | .num n => natChars n
  | .str s => '"' :: (escapeChars s.data ++ ['"'])
  | .obj kvs => '\x7b' :: (dumpMembers kvs ++ ['\x7d'])

/-- Serialisation of the member list of a JSON object. -/
def dumpMembers : List (String × Json) → List Char
  | [] => []
  | [(k, v)] => '"' :: (escapeChars k.data ++ ['"', ':'] ++ dumpJson v)
  | (k, v) :: kv :: rest =>
      '"' :: (escapeChars k.data ++ ['"', ':'] ++ dumpJson v ++
        ',' :: dumpMembers (kv :: rest))

end

mutual

theorem dumpJson_no_newline : ∀ j, '\n' ∉ dumpJson j
  | .null => by rw [dumpJson]; decide
  | .b true => by rw [dumpJson]; decide
  | .b false => by rw [dumpJson]; decide
  | .num n => by rw [dumpJson]; exact natChars_no_newline n
  | .str s => by
      rw [dumpJson]
      exact no_newline_cons (by decide)
        (no_newline_append (escapeChars_no_newline s.data) (by decide))
  | .obj kvs => by
      rw [dumpJson]
      exact no_newline_cons (by decide)
        (no_newline_append (dumpMembers_no_newline kvs) (by decide))

theorem dumpMembers_no_newline : ∀ kvs, '\n' ∉ dumpMembers kvs
  | [] => by rw [dumpMembers]; simp
  | [(k, v)] => by
      rw [dumpMembers]
      exact no_newline_cons (by decide)
        (no_newline_append
          (no_newline_append (escapeChars_no_newline k.data) (by decide))
          (dumpJson_no_newline v))
  | (k, v) :: kv :: rest => by
      rw [dumpMembers]
      exact no_newline_cons (by decide)
        (no_newline_append
          (no_newline_append
            (no_newline_append (escapeChars_no_newline k.data) (by decide))
            (dumpJson_no_newline v))
          (no_newline_cons (by decide) (dumpMembers_no_newline (kv :: rest))))

end

/-- Request payload, mirroring `request_to_json` (missing optionals map to
the empty string; keys listed in the lexicographic order `dump()` emits). -/
def request_to_json (request : RunRequest) : Json :=
  .obj [("max_steps", .num request.max_steps),
        ("plan_file", .str (request.plan_file.getD "")),
        ("task_description", .str (request.task_description.getD "")),
        ("verbose", .b request.verbose),
        ("working_directory", .str request.working_directory)]

/-- Step payload, mirroring `step_to_json`. -/
def step_to_json (step : RunStep) : Json :=
  .obj [("id", .str step.id),
        ("output", .str step.output),
        ("success", .b step.success),
        ("type", .str (runStepTypeString step.type))]

/-- Final payload, mirroring the payload built in `write_final`. -/
def final_to_json (status : RunStatus) (summary : String)
    (error_message : Option String) : Json :=
  .obj [("error_message", .str (error_message.getD "")),
        ("status", .str (runStatusString status)),
        ("summary", .str summary)]

/-- Canonical event envelope shared by the three writers. -/
def eventEnvelope (ts_unix_ms : Nat) (event : String) (run_id : String)
    (payload : Json) : Json :=
  .obj [("event", .str event),
        ("payload", payload),
        ("run_id", .str run_id),
        ("ts_unix_ms", .num ts_unix_ms)]

/-- The log file as its byte list. -/
abbrev ArtifactFile := List Char

/-- Mirrors `ArtifactWriter::append_event`: append the dumped event and
one newline to the log. -/
def append_event (file : ArtifactFile) (event_json : List Char) : ArtifactFile :=
  file ++ event_json ++ ['\n']

/-- Mirrors `ArtifactWriter::write_request`; the timestamp is passed in
for `now_unix_ms()`. -/
def write_request (ts : Nat) (run_id : String) (request : RunRequest)
    (file : ArtifactFile) : ArtifactFile :=
  append_event file (dumpJson (eventEnvelope ts "request" run_id (request_to_json request)))

/-- Mirrors `ArtifactWriter::write_step`. -/
def write_step (ts : Nat) (run_id : String) (step : RunStep)
    (file : ArtifactFile) : ArtifactFile :=
  append_event file (dumpJson (eventEnvelope ts "step" run_id (step_to_json step)))

/-- Mirrors `ArtifactWriter::write_final`. -/
def write_final (ts : Nat) (run_id : String) (status : RunStatus) (summary : String)
    (error_message : Option String) (file : ArtifactFile) : ArtifactFile :=
  append_event file
    (dumpJson (eventEnvelope ts "final" run_id (final_to_json status summary error_message)))

theorem splitOnChar_append_of_no_sep (sep : Char) (xs ys : List Char) (h : sep ∉ xs) :
    splitOnChar sep (xs ++ sep :: ys) = xs :: splitOnChar sep ys := by
  induction xs with
  | nil =>
      simp [splitOnChar]
  | cons c t ih =>
      have hc : c ≠ sep := fun hcs => h (hcs ▸ List.mem_cons_self c t)
      have ht : sep ∉ t := fun hmem => h (List.mem_cons_of_mem c hmem)
      rw [List.cons_append, splitOnChar, if_neg hc, ih ht]

/-- Field access on a JSON object. -/
def getField : Json → String → Option Json
  | .obj kvs, k => kvs.lookup k
  | _, _ => none

/-- String reading of a JSON value. -/
def asStr : Json → Option String
  | .str s => some s
  | _ => none

/-- Boolean reading of a JSON value. -/
def asBool : Json → Option Bool
  | .b v => some v
  | _ => none

/-- Inverse of the snake-case step-type rendering. -/
def stepTypeOfString : String → Option RunStepType
  | "inspect_request" => some .InspectRequest
  | "load_context" => some .LoadContext
  | "execute_command" => some .ExecuteCommand
  | "apply_patch" => some .ApplyPatch
  | "build_report" => some .BuildReport
  | _ => none

/-- Reader of a step payload: the parsing direction of the round-trip
property of section 8 of the specification. -/
def decodeStep (j : Json) : Option RunStep := do
  let idj ← getField j "id"
  let id ← asStr idj
  let tyj ← getField j "type"
  let tys ← asStr tyj
  let ty ← stepTypeOfString tys
  let sj ← getField j "success"
  let succ ← asBool sj
  let oj ← getField j "output"
  let out ← asStr oj
  pure ⟨id, ty, succ, out⟩

theorem decodeStep_step_to_json (step : RunStep) :
    decodeStep (step_to_json step) = some step := by
  obtain ⟨id, ty, succ, out⟩ := step
  cases ty <;> rfl

/-- C9: write_request then write_step then write_final on an initially
absent log produce a file whose newline-split form is exactly the three
dumped event envelopes, tagged request, step and final in that order,
followed by the empty remainder after the final newline; each writer
appends exactly one line (one newline); and a RunStep written via
write_step is exactly recoverable by parsing its payload. -/
theorem C9_artifact_writer_lines_and_roundtrip (run_id : String) (ts1 ts2 ts3 : Nat)
    (request : RunRequest) (step : RunStep) (status : RunStatus) (summary : String)
    (error_message : Option String) :
    splitOnChar '\n'
        (write_final ts3 run_id status summary error_message
          (write_step ts2 run_id step (write_request ts1 run_id request []))) =
      [dumpJson (eventEnvelope ts1 "request" run_id (request_to_json request)),
       dumpJson (eventEnvelope ts2 "step" run_id (step_to_json step)),
       dumpJson (eventEnvelope ts3 "final" run_id
         (final_to_json status summary error_message)),
       []]
  ∧ (∀ file, (write_request ts1 run_id request file).count '\n' = file.count '\n' + 1)
  ∧ (∀ file, (write_step ts2 run_id step file).count '\n' = file.count '\n' + 1)
  ∧ (∀ file, (write_final ts3 run_id status summary error_message file).count '\n' =
      file.count '\n' + 1)
  ∧ decodeStep (step_to_json step) = some step := by
  have h1 := dumpJson_no_newline (eventEnvelope ts1 "request" run_id (request_to_json request))
  have h2 := dumpJson_no_newline (eventEnvelope ts2 "step" run_id (step_to_json step))
  have h3 := dumpJson_no_newline
    (eventEnvelope ts3 "final" run_id (final_to_json status summary error_message))
  refine ⟨?_, ?_, ?_, ?_, decodeStep_step_to_json step⟩
  · show splitOnChar '\n'
        ((([] ++ _ ++ ['\n']) ++ _ ++ ['\n']) ++ _ ++ ['\n']) = _
    simp only [List.nil_append, List.append_assoc, List.singleton_append, List.cons_append]
    rw [splitOnChar_append_of_no_sep _ _ _ h1, splitOnChar_append_of_no_sep _ _ _ h2,
      splitOnChar_append_of_no_sep _ _ _ h3]
    rfl
  · intro file
    simp [write_request, append_event, List.count_append,
      List.count_eq_zero.mpr h1]
  · intro file
    simp [write_step, append_event, List.count_append,
      List.count_eq_zero.mpr h2]
  · intro file
    simp [write_final, append_event, List.count_append,
      List.count_eq_zero.mpr h3]

end Vaazha
